import Mathlib

/-!
Verification of the `Stopwatch` time-accumulation primitive
(`crates/bevy_time/src/stopwatch.rs`).

The embedding models `core::time::Duration` as a pair of a seconds count
(a `u64`, represented as a `Nat` bounded by `U64_MAX`) and a subsecond
nanosecond count (bounded by `NANOS_PER_SEC`), with Rust's
`checked_add` / `saturating_add` semantics spelled out explicitly.
`Stopwatch` methods that mutate `&mut self` become state-passing
functions `Stopwatch → … → Stopwatch`.
-/

/-- Number of nanoseconds in one second (`NANOS_PER_SEC` in Rust's
`core::time`). -/
def NANOS_PER_SEC : Nat := 1000000000

/-- The largest value of Rust's `u64`, the type of `Duration`'s seconds
field. -/
def U64_MAX : Nat := 18446744073709551615

/-- Model of `core::time::Duration`: a seconds count (`u64`) and a
subsecond nanoseconds count (`u32`, kept below `NANOS_PER_SEC`).
The representation invariants are carried separately as `Duration.wf`. -/
structure Duration where
  secs : Nat
  nanos : Nat
deriving DecidableEq

/-- The representation invariant Rust's `Duration` maintains by
construction: `secs` fits in a `u64` and `nanos` is a valid subsecond
count. -/
abbrev Duration.wf (d : Duration) : Prop :=
  d.secs ≤ U64_MAX ∧ d.nanos < NANOS_PER_SEC

/-- Model of `Duration::default()` / `Duration::ZERO`. -/
def Duration.default : Duration := ⟨0, 0⟩

/-- Model of `Duration::MAX`: `Duration::new(u64::MAX, NANOS_PER_SEC - 1)`. -/
def Duration.MAX : Duration := ⟨U64_MAX, NANOS_PER_SEC - 1⟩

/-- Model of `Duration::checked_add`: add the seconds (checking `u64`
overflow), add the nanosecond parts and carry one second when they reach
`NANOS_PER_SEC` (again checking `u64` overflow on the carry). -/
def Duration.checked_add (a b : Duration) : Option Duration :=
  if a.secs + b.secs ≤ U64_MAX then
    if NANOS_PER_SEC ≤ a.nanos + b.nanos then
      if a.secs + b.secs + 1 ≤ U64_MAX then
        some ⟨a.secs + b.secs + 1, a.nanos + b.nanos - NANOS_PER_SEC⟩
      else
        none
    else
      some ⟨a.secs + b.secs, a.nanos + b.nanos⟩
  else
    none

/-- Model of `Duration::saturating_add`: `checked_add`, falling back to
`Duration::MAX` on overflow. -/
def Duration.saturating_add (a b : Duration) : Duration :=
  match a.checked_add b with
  | some res => res
  | none => Duration.MAX

/-- The total number of nanoseconds a `Duration` denotes; the abstraction
function of the model. -/
def Duration.toNanos (d : Duration) : Nat :=
  d.secs * NANOS_PER_SEC + d.nanos

/-- Model of the seconds value `Duration::as_secs_f32` converts to:
`secs as f32 + (nanos as f32) / (NANOS_PER_SEC as f32)`.  The
floating-point arithmetic of the conversion is modelled exactly, over the
rationals. -/
def Duration.as_secs_f32 (d : Duration) : ℚ :=
  (d.secs : ℚ) + (d.nanos : ℚ) / (NANOS_PER_SEC : ℚ)

/-- Model of the seconds value `Duration::as_secs_f64` converts to:
`secs as f64 + (nanos as f64) / (NANOS_PER_SEC as f64)`, modelled exactly
over the rationals. -/
def Duration.as_secs_f64 (d : Duration) : ℚ :=
  (d.secs : ℚ) + (d.nanos : ℚ) / (NANOS_PER_SEC : ℚ)

/-- The `Stopwatch` struct: an accumulated `elapsed` duration and a
paused flag.  The field accessors are exactly the source's `elapsed()`
and `is_paused()` getters. -/
structure Stopwatch where
  elapsed : Duration
  is_paused : Bool
deriving DecidableEq

/-- Model of the derived `Default` instance: zero elapsed time, not
paused. -/
def Stopwatch.default : Stopwatch := ⟨Duration.default, false⟩

/-- `Stopwatch::new`: `Default::default()`. -/
def Stopwatch.new : Stopwatch := Stopwatch.default

/-- `Stopwatch::elapsed_secs`: `self.elapsed().as_secs_f32()`. -/
def Stopwatch.elapsed_secs (s : Stopwatch) : ℚ :=
  s.elapsed.as_secs_f32

/-- `Stopwatch::elapsed_secs_f64`: `self.elapsed().as_secs_f64()`. -/
def Stopwatch.elapsed_secs_f64 (s : Stopwatch) : ℚ :=
  s.elapsed.as_secs_f64

/-- `Stopwatch::set_elapsed`: overwrite the `elapsed` field. -/
def Stopwatch.set_elapsed (s : Stopwatch) (time : Duration) : Stopwatch :=
  { s with elapsed := time }

/-- `Stopwatch::tick`: if the stopwatch is not paused, saturating-add the
delta to `elapsed`; the returned `&Self` is the post-tick state. -/
def Stopwatch.tick (s : Stopwatch) (delta : Duration) : Stopwatch :=
  if !s.is_paused then
    { s with elapsed := s.elapsed.saturating_add delta }
  else
    s

/-- `Stopwatch::pause`: set `is_paused` to `true`. -/
def Stopwatch.pause (s : Stopwatch) : Stopwatch :=
  { s with is_paused := true }

/-- `Stopwatch::unpause`: set `is_paused` to `false`. -/
def Stopwatch.unpause (s : Stopwatch) : Stopwatch :=
  { s with is_paused := false }

/-- `Stopwatch::reset`: set `elapsed` back to `Default::default()`,
leaving `is_paused` alone. -/
def Stopwatch.reset (s : Stopwatch) : Stopwatch :=
  { s with elapsed := Duration.default }

/-- Ticking a stopwatch state once with each delta of a list, in order;
the shape in which the spec quantifies over "sequences of deltas". -/
def Stopwatch.tickAll (s : Stopwatch) (ds : List Duration) : Stopwatch :=
  ds.foldl Stopwatch.tick s

/-- Modelled from the spec: the serialized form produced by the derived
serde implementation, which is not part of this repository's sources.
Per the spec it is "an ordered record of exactly two fields: `elapsed`
(duration) and `is_paused` (boolean)". -/
def Stopwatch.serialize (s : Stopwatch) : Duration × Bool :=
  (s.elapsed, s.is_paused)

/-- Modelled from the spec: decoding the two-field serialized record back
into a `Stopwatch`. -/
def Stopwatch.deserialize (r : Duration × Bool) : Stopwatch :=
  ⟨r.1, r.2⟩

/-! ### Helper lemmas about the `Duration` model -/

theorem Duration.eq_of_toNanos (a b : Duration) (ha : a.wf) (hb : b.wf)
    (h : a.toNanos = b.toNanos) : a = b := by
  obtain ⟨s₁, n₁⟩ := a
  obtain ⟨s₂, n₂⟩ := b
  obtain ⟨_, ha₂⟩ := ha
  obtain ⟨_, hb₂⟩ := hb
  simp only [Duration.toNanos, NANOS_PER_SEC] at h
  simp only [NANOS_PER_SEC] at ha₂ hb₂
  simp only [Duration.mk.injEq]
  omega

theorem Duration.checked_add_some (a b c : Duration) (ha : a.wf) (hb : b.wf)
    (hc : a.checked_add b = some c) :
    c.toNanos = a.toNanos + b.toNanos ∧ c.wf ∧
      a.toNanos + b.toNanos ≤ Duration.MAX.toNanos := by
  obtain ⟨ha₁, ha₂⟩ := ha
  obtain ⟨hb₁, hb₂⟩ := hb
  unfold Duration.checked_add at hc
  split_ifs at hc with h₁ h₂ h₃ <;>
    first
      | exact Option.noConfusion hc
      | (obtain rfl := Option.some.inj hc
         simp only [Duration.toNanos, Duration.wf, Duration.MAX, U64_MAX,
           NANOS_PER_SEC] at *
         omega)

theorem Duration.checked_add_none (a b : Duration) (ha : a.wf) (hb : b.wf)
    (hc : a.checked_add b = none) :
    Duration.MAX.toNanos < a.toNanos + b.toNanos := by
  obtain ⟨ha₁, ha₂⟩ := ha
  obtain ⟨hb₁, hb₂⟩ := hb
  unfold Duration.checked_add at hc
  split_ifs at hc with h₁ h₂ h₃ <;>
    first
      | exact Option.noConfusion hc
      | (simp only [Duration.toNanos, Duration.MAX, U64_MAX,
           NANOS_PER_SEC] at *
         omega)

theorem Duration.saturating_add_toNanos (a b : Duration)
    (ha : a.wf) (hb : b.wf) :
    (a.saturating_add b).toNanos
      = min (a.toNanos + b.toNanos) Duration.MAX.toNanos := by
  unfold Duration.saturating_add
  cases hc : a.checked_add b with
  | some c =>
      obtain ⟨h₁, _, h₃⟩ := Duration.checked_add_some a b c ha hb hc
      show c.toNanos = _
      omega
  | none =>
      have h := Duration.checked_add_none a b ha hb hc
      show Duration.MAX.toNanos = _
      omega

theorem Duration.MAX_wf : Duration.MAX.wf := by
  constructor <;> decide

theorem Duration.saturating_add_wf (a b : Duration)
    (ha : a.wf) (hb : b.wf) : (a.saturating_add b).wf := by
  unfold Duration.saturating_add
  cases hc : a.checked_add b with
  | some c =>
      obtain ⟨_, h₂, _⟩ := Duration.checked_add_some a b c ha hb hc
      exact h₂
  | none =>
      exact Duration.MAX_wf

/-! ### Helper lemmas about the `Stopwatch` model -/

theorem Stopwatch.ext_fields (a b : Stopwatch)
    (he : a.elapsed = b.elapsed) (hp : a.is_paused = b.is_paused) :
    a = b := by
  cases a
  cases b
  simp_all

theorem Stopwatch.tick_preserves_pause (s : Stopwatch) (d : Duration) :
    (s.tick d).is_paused = s.is_paused := by
  unfold Stopwatch.tick
  split <;> rfl

theorem Stopwatch.tick_elapsed_unpaused (s : Stopwatch) (d : Duration)
    (hp : s.is_paused = false) :
    (s.tick d).elapsed = s.elapsed.saturating_add d := by
  simp [Stopwatch.tick, hp]

/-! ### The claims -/

/-- C1: `tick(delta)` sets `elapsed` to `saturating_add(elapsed, delta)`
when the stopwatch is not paused, and leaves `elapsed` unchanged when it
is paused; in both cases the call is total (a legal call, never an
error). -/
theorem tick_elapsed_spec (s : Stopwatch) (d : Duration) :
    (s.tick d).elapsed
      = (if s.is_paused then s.elapsed else s.elapsed.saturating_add d) := by
  cases hp : s.is_paused <;> simp [Stopwatch.tick, hp]

/-- C2: on an unpaused stopwatch, ticking by a delta so large that the
exact sum of elapsed and delta exceeds the maximum representable
duration leaves `elapsed` equal to exactly `Duration::MAX` — never a
wrapped, smaller or negative value, and never a panic (the function is
total). -/
theorem tick_saturates_at_max (s : Stopwatch) (d : Duration)
    (hp : s.is_paused = false) (hs : s.elapsed.wf) (hd : d.wf)
    (hover : Duration.MAX.toNanos < s.elapsed.toNanos + d.toNanos) :
    (s.tick d).elapsed = Duration.MAX := by
  rw [Stopwatch.tick_elapsed_unpaused s d hp]
  unfold Duration.saturating_add
  cases hc : s.elapsed.checked_add d with
  | some c =>
      obtain ⟨_, _, h₃⟩ := Duration.checked_add_some s.elapsed d c hs hd hc
      exact absurd h₃ (by omega)
  | none => rfl

/-- Witness for C2 at a concrete overflowing input: a stopwatch holding
`Duration::MAX` seconds ticked by one further second. -/
theorem tick_saturates_at_max_witness :
    (Stopwatch.tick ⟨⟨U64_MAX, 0⟩, false⟩ ⟨1, 0⟩).elapsed = Duration.MAX :=
  tick_saturates_at_max ⟨⟨U64_MAX, 0⟩, false⟩ ⟨1, 0⟩ rfl
    (by constructor <;> decide) (by constructor <;> decide) (by decide)

/-- C3: `reset()` sets `elapsed` to zero (so `elapsed()` is the zero
duration, denoting 0 nanoseconds, regardless of prior pause state) and
leaves `is_paused` exactly as it was. -/
theorem reset_spec (s : Stopwatch) :
    (s.reset).elapsed = Duration.default
      ∧ (s.reset).elapsed.toNanos = 0
      ∧ (s.reset).is_paused = s.is_paused := by
  refine ⟨rfl, ?_, rfl⟩
  simp [Stopwatch.reset, Duration.default, Duration.toNanos]

/-- C4: on an unpaused stopwatch, ticking by d₁ then d₂ accumulates the
saturating sum of the initial elapsed time and both deltas (ordinary
addition up to saturation at `Duration::MAX`), and the resulting state is
independent of the order in which the two deltas are applied. -/
theorem tick_tick_accumulates (s : Stopwatch) (d₁ d₂ : Duration)
    (hp : s.is_paused = false) (hs : s.elapsed.wf) (h₁ : d₁.wf) (h₂ : d₂.wf) :
    ((s.tick d₁).tick d₂).elapsed.toNanos
        = min (s.elapsed.toNanos + d₁.toNanos + d₂.toNanos)
            Duration.MAX.toNanos
      ∧ (s.tick d₁).tick d₂ = (s.tick d₂).tick d₁ := by
  have hp₁ : (s.tick d₁).is_paused = false := by
    rw [Stopwatch.tick_preserves_pause, hp]
  have hp₂ : (s.tick d₂).is_paused = false := by
    rw [Stopwatch.tick_preserves_pause, hp]
  have e₁₂ : ((s.tick d₁).tick d₂).elapsed
      = (s.elapsed.saturating_add d₁).saturating_add d₂ := by
    rw [Stopwatch.tick_elapsed_unpaused _ d₂ hp₁,
      Stopwatch.tick_elapsed_unpaused s d₁ hp]
  have e₂₁ : ((s.tick d₂).tick d₁).elapsed
      = (s.elapsed.saturating_add d₂).saturating_add d₁ := by
    rw [Stopwatch.tick_elapsed_unpaused _ d₁ hp₂,
      Stopwatch.tick_elapsed_unpaused s d₂ hp]
  have n₁₂ : ((s.elapsed.saturating_add d₁).saturating_add d₂).toNanos
      = min (s.elapsed.toNanos + d₁.toNanos + d₂.toNanos)
          Duration.MAX.toNanos := by
    rw [Duration.saturating_add_toNanos _ d₂
        (Duration.saturating_add_wf _ _ hs h₁) h₂,
      Duration.saturating_add_toNanos s.elapsed d₁ hs h₁]
    omega
  have n₂₁ : ((s.elapsed.saturating_add d₂).saturating_add d₁).toNanos
      = min (s.elapsed.toNanos + d₂.toNanos + d₁.toNanos)
          Duration.MAX.toNanos := by
    rw [Duration.saturating_add_toNanos _ d₁
        (Duration.saturating_add_wf _ _ hs h₂) h₁,
      Duration.saturating_add_toNanos s.elapsed d₂ hs h₂]
    omega
  refine ⟨by rw [e₁₂, n₁₂], ?_⟩
  apply Stopwatch.ext_fields
  · rw [e₁₂, e₂₁]
    apply Duration.eq_of_toNanos
    · exact Duration.saturating_add_wf _ _
        (Duration.saturating_add_wf _ _ hs h₁) h₂
    · exact Duration.saturating_add_wf _ _
        (Duration.saturating_add_wf _ _ hs h₂) h₁
    · rw [n₁₂, n₂₁]
      omega
  · rw [Stopwatch.tick_preserves_pause, Stopwatch.tick_preserves_pause,
      Stopwatch.tick_preserves_pause, Stopwatch.tick_preserves_pause]

/-- Witness for C4 at concrete inputs: a fresh stopwatch ticked by
1.5 s and 2.7 s in both orders. -/
theorem tick_tick_accumulates_witness :
    ((Stopwatch.new.tick ⟨1, 500000000⟩).tick ⟨2, 700000000⟩).elapsed.toNanos
        = min (Stopwatch.new.elapsed.toNanos
            + Duration.toNanos ⟨1, 500000000⟩
            + Duration.toNanos ⟨2, 700000000⟩) Duration.MAX.toNanos
      ∧ (Stopwatch.new.tick ⟨1, 500000000⟩).tick ⟨2, 700000000⟩
        = (Stopwatch.new.tick ⟨2, 700000000⟩).tick ⟨1, 500000000⟩ :=
  tick_tick_accumulates Stopwatch.new ⟨1, 500000000⟩ ⟨2, 700000000⟩ rfl
    (by decide) (by decide) (by decide)

/-- C5: `Stopwatch::new()` always produces `elapsed = 0` and
`is_paused = false`; being a total function of no arguments it has no
failure mode. -/
theorem new_spec :
    Stopwatch.new.elapsed = Duration.default
      ∧ Stopwatch.new.elapsed.toNanos = 0
      ∧ Stopwatch.new.is_paused = false := by
  refine ⟨rfl, ?_, rfl⟩
  simp [Stopwatch.new, Stopwatch.default, Duration.default, Duration.toNanos]

/-- C6: `pause()` sets `is_paused = true`, `unpause()` sets
`is_paused = false`, both are idempotent, and neither changes
`elapsed`. -/
theorem pause_unpause_spec (s : Stopwatch) :
    (s.pause).is_paused = true
      ∧ (s.unpause).is_paused = false
      ∧ (s.pause).pause = s.pause
      ∧ (s.unpause).unpause = s.unpause
      ∧ (s.pause).elapsed = s.elapsed
      ∧ (s.unpause).elapsed = s.elapsed := by
  cases s
  simp [Stopwatch.pause, Stopwatch.unpause]

/-- C7: on a stopwatch that was never paused, calling `pause()` then
`unpause()` and then ticking any sequence of deltas yields exactly the
same state (both `elapsed` and `is_paused`) as ticking the never-paused
stopwatch with the same sequence. -/
theorem pause_unpause_restores (s : Stopwatch) (ds : List Duration)
    (hp : s.is_paused = false) :
    ((s.pause).unpause).tickAll ds = s.tickAll ds := by
  have h : (s.pause).unpause = s := by
    cases s
    simp_all [Stopwatch.pause, Stopwatch.unpause]
  rw [h]

/-- Witness for C7 at concrete inputs: a fresh stopwatch and a two-delta
sequence. -/
theorem pause_unpause_restores_witness :
    ((Stopwatch.new.pause).unpause).tickAll [⟨1, 0⟩, ⟨2, 500000000⟩]
      = Stopwatch.new.tickAll [⟨1, 0⟩, ⟨2, 500000000⟩] :=
  pause_unpause_restores Stopwatch.new [⟨1, 0⟩, ⟨2, 500000000⟩] rfl

/-- The duration→seconds conversion as the spec words it: the seconds
count plus the nanosecond count divided by one billion, as an exact
rational; stated independently of the source-side `as_secs_f32` and
`as_secs_f64` models so the two can be compared. -/
def durationToSeconds (d : Duration) : ℚ :=
  (d.secs : ℚ) + (d.nanos : ℚ) / 1000000000

/-- C8: `elapsed_secs()` and `elapsed_secs_f64()` both equal the stored
elapsed duration converted by the standard duration→seconds conversion,
computed fresh from the current `elapsed` field on each call (they are
functions of `elapsed` alone, so no rounding error accumulates across
calls), and they agree with each other and with `elapsed()` exactly in
this model, where the floating-point conversions are modelled as exact
rationals. -/
theorem elapsed_secs_spec (s : Stopwatch) :
    s.elapsed_secs = durationToSeconds s.elapsed
      ∧ s.elapsed_secs_f64 = durationToSeconds s.elapsed
      ∧ s.elapsed_secs = s.elapsed_secs_f64 := by
  refine ⟨?_, ?_, rfl⟩ <;>
    simp [Stopwatch.elapsed_secs, Stopwatch.elapsed_secs_f64,
      Duration.as_secs_f32, Duration.as_secs_f64, durationToSeconds,
      NANOS_PER_SEC]

/-- C9: the serialized form is the ordered record of exactly the two
fields `elapsed` then `is_paused`, and decoding the encoding of any
`Stopwatch` reproduces an equal `Stopwatch`. -/
theorem serialize_round_trip (s : Stopwatch) :
    Stopwatch.serialize s = (s.elapsed, s.is_paused)
      ∧ Stopwatch.deserialize (Stopwatch.serialize s) = s := by
  cases s
  exact ⟨rfl, rfl⟩

/-- C10: `tick` never changes `is_paused` (paused or not), and
`set_elapsed` never changes `is_paused`; of the mutators only `pause`
and `unpause` touch the flag (`reset` also preserves it). -/
theorem only_pause_unpause_touch_flag (s : Stopwatch) (d t : Duration) :
    (s.tick d).is_paused = s.is_paused
      ∧ (s.set_elapsed t).is_paused = s.is_paused
      ∧ (s.reset).is_paused = s.is_paused := by
  refine ⟨?_, rfl, rfl⟩
  unfold Stopwatch.tick
  split <;> rfl
